import Mathlib

/-!
Verification development for the ollmlx MLX backend server
(src/mlx_backend/server.py).

The Python source is shallowly embedded: each relevant Python function is
translated into an executable Lean definition, with external collaborators
(the MLX inference engine, the tokenizer, the Hugging Face loaders, PIL
image decoding, wall-clock timers) abstracted into explicit environment
records.  Wall-clock durations are modelled as 0 since no claim concerns
timing values; all other fields follow the source line by line.
-/

/-! ## Python string helpers

Models of the CPython `str` operations used by the server: `strip()`,
`lower()`, the `in` substring test, and whitespace `split()` (only its
length is needed).  Only ASCII whitespace is modelled, which covers every
string the server manipulates. -/

def isPyWs (c : Char) : Bool :=
  c = ' ' || c = '\t' || c = '\n' || c = '\r' || c = '\x0b' || c = '\x0c'

def pyStripChars (cs : List Char) : List Char :=
  ((cs.dropWhile isPyWs).reverse.dropWhile isPyWs).reverse

def pyStrip (s : String) : String :=
  String.mk (pyStripChars s.data)

def pyLower (s : String) : String :=
  String.mk (s.data.map Char.toLower)

def charsStartWith : List Char → List Char → Bool
  | [], _ => true
  | _ :: _, [] => false
  | a :: as, b :: bs => a = b && charsStartWith as bs

def charsContain : List Char → List Char → Bool
  | [], sub => sub.isEmpty
  | h :: t, sub => charsStartWith sub (h :: t) || charsContain t sub

def pyContains (s sub : String) : Bool :=
  charsContain s.data sub.data

def wcGo : List Char → Bool → Nat
  | [], _ => 0
  | c :: t, inw =>
    if isPyWs c then wcGo t false
    else (if inw then 0 else 1) + wcGo t true

/-- Model of `len(s.split())` for a Python string: number of maximal
non-whitespace runs. -/
def pyWordCount (s : String) : Nat :=
  wcGo s.data false

/-! ## JSON values and a model of `json.loads`

The server delegates JSON parsing to the Python standard library.
`Json.parse` models `json.loads`: a strict RFC-8259 parser extended with
the CPython extensions `NaN`/`Infinity`/`-Infinity`.  Numbers keep their
lexeme (no claim computes with numeric values; only Python truthiness of
a number is needed, which is decidable on the lexeme).  Objects keep
first-insertion order with last-value-wins on duplicate keys, exactly as
Python `dict` does. -/

inductive Json where
  | null : Json
  | bool (b : Bool) : Json
  | num (lex : String) : Json
  | str (s : String) : Json
  | arr (xs : List Json) : Json
  | obj (entries : List (String × Json)) : Json

def Json.isObj : Json → Bool
  | .obj _ => true
  | _ => false

/-- A JSON number is (Python-)falsy iff its mantissa digits are all zero.
`NaN`/`Infinity` have no digits before the exponent marker and are truthy,
matching `bool(float("nan")) == True`. -/
def isZeroNumLex (lex : List Char) : Bool :=
  let digits := (lex.takeWhile (fun c => c ≠ 'e' && c ≠ 'E')).filter Char.isDigit
  !digits.isEmpty && digits.all (fun c => c = '0')

/-- Python truthiness (`bool(x)`) of a decoded JSON value. -/
def Json.falsy : Json → Bool
  | .null => true
  | .bool b => !b
  | .num lex => isZeroNumLex lex.data
  | .str s => s.isEmpty
  | .arr xs => xs.isEmpty
  | .obj es => es.isEmpty

/-- `dict` insertion: replace in place if the key exists, else append. -/
def insertEntry : List (String × Json) → String → Json → List (String × Json)
  | [], k, v => [(k, v)]
  | (k', v') :: t, k, v =>
    if k' = k then (k, v) :: t else (k', v') :: insertEntry t k v

def lookupJ : List (String × Json) → String → Option Json
  | [], _ => none
  | (k', v') :: t, k => if k' = k then some v' else lookupJ t k

def isJsonWs (c : Char) : Bool :=
  c = ' ' || c = '\t' || c = '\n' || c = '\r'

def skipJsonWs : List Char → List Char
  | [] => []
  | c :: t => if isJsonWs c then skipJsonWs t else c :: t

def hexDigitVal (c : Char) : Option Nat :=
  if '0' ≤ c ∧ c ≤ '9' then some (c.toNat - '0'.toNat)
  else if 'a' ≤ c ∧ c ≤ 'f' then some (c.toNat - 'a'.toNat + 10)
  else if 'A' ≤ c ∧ c ≤ 'F' then some (c.toNat - 'A'.toNat + 10)
  else none

/-- Body of a JSON string literal (after the opening quote), with the
standard escapes.  A lone `\uXXXX` escape decodes to the code point. -/
def jstrGo : List Char → List Char → Option (List Char × List Char)
  | [], _ => none
  | '"' :: t, acc => some (acc.reverse, t)
  | '\\' :: t, acc =>
    match t with
    | '"' :: r => jstrGo r ('"' :: acc)
    | '\\' :: r => jstrGo r ('\\' :: acc)
    | '/' :: r => jstrGo r ('/' :: acc)
    | 'b' :: r => jstrGo r ('\x08' :: acc)
    | 'f' :: r => jstrGo r ('\x0c' :: acc)
    | 'n' :: r => jstrGo r ('\n' :: acc)
    | 'r' :: r => jstrGo r ('\r' :: acc)
    | 't' :: r => jstrGo r ('\t' :: acc)
    | 'u' :: h1 :: h2 :: h3 :: h4 :: r =>
      match hexDigitVal h1, hexDigitVal h2, hexDigitVal h3, hexDigitVal h4 with
      | some a, some b, some c, some d =>
        jstrGo r (Char.ofNat (((a * 16 + b) * 16 + c) * 16 + d) :: acc)
      | _, _, _, _ => none
    | _ => none
  | c :: t, acc => if c.toNat < 0x20 then none else jstrGo t (c :: acc)

def takeDigits (cs : List Char) : List Char × List Char :=
  (cs.takeWhile Char.isDigit, cs.dropWhile Char.isDigit)

/-- JSON number lexeme (strict grammar, plus `-Infinity`). Returns the
lexeme and the rest of the input. -/
def parseJNum (cs : List Char) : Option (List Char × List Char) :=
  let signed : Bool × List Char :=
    match cs with
    | '-' :: t => (true, t)
    | _ => (false, cs)
  let sign : List Char := if signed.1 then ['-'] else []
  match signed.2 with
  | 'I' :: 'n' :: 'f' :: 'i' :: 'n' :: 'i' :: 't' :: 'y' :: r =>
    if signed.1 then some (sign ++ "Infinity".data, r) else none
  | '0' :: t =>
    match t with
    | d :: _ =>
      if d.isDigit then none else parseJNumFrac (sign ++ ['0']) t
    | [] => some (sign ++ ['0'], [])
  | c :: t =>
    if c.isDigit then
      let ds := takeDigits t
      parseJNumFrac (sign ++ c :: ds.1) ds.2
    else none
  | [] => none
where
  parseJNumFrac (intPart : List Char) (cs : List Char) :
      Option (List Char × List Char) :=
    match cs with
    | '.' :: t =>
      let ds := takeDigits t
      if ds.1.isEmpty then none
      else parseJNumExp (intPart ++ '.' :: ds.1) ds.2
    | _ => parseJNumExp intPart cs
  parseJNumExp (mant : List Char) (cs : List Char) :
      Option (List Char × List Char) :=
    match cs with
    | e :: t =>
      if e = 'e' ∨ e = 'E' then
        let st : List Char × List Char :=
          match t with
          | '+' :: r => (['+'], r)
          | '-' :: r => (['-'], r)
          | _ => ([], t)
        let ds := takeDigits st.2
        if ds.1.isEmpty then none
        else some (mant ++ e :: st.1 ++ ds.1, ds.2)
      else some (mant, cs)
    | [] => some (mant, [])

mutual

def parseJValue (fuel : Nat) (cs : List Char) : Option (Json × List Char) :=
  match fuel with
  | 0 => none
  | fuel' + 1 =>
    match skipJsonWs cs with
    | 'n' :: 'u' :: 'l' :: 'l' :: r => some (.null, r)
    | 't' :: 'r' :: 'u' :: 'e' :: r => some (.bool true, r)
    | 'f' :: 'a' :: 'l' :: 's' :: 'e' :: r => some (.bool false, r)
    | 'N' :: 'a' :: 'N' :: r => some (.num "NaN", r)
    | 'I' :: 'n' :: 'f' :: 'i' :: 'n' :: 'i' :: 't' :: 'y' :: r =>
      some (.num "Infinity", r)
    | '"' :: r =>
      match jstrGo r [] with
      | some (s, rest) => some (.str (String.mk s), rest)
      | none => none
    | '[' :: r =>
      match skipJsonWs r with
      | ']' :: r2 => some (.arr [], r2)
      | cs2 => parseJArrElems fuel' cs2 []
    | '\x7b' :: r =>
      match skipJsonWs r with
      | '\x7d' :: r2 => some (.obj [], r2)
      | cs2 => parseJObjElems fuel' cs2 []
    | c :: r =>
      if c = '-' ∨ c.isDigit then
        match parseJNum (c :: r) with
        | some (lex, rest) => some (.num (String.mk lex), rest)
        | none => none
      else none
    | [] => none

def parseJArrElems (fuel : Nat) (cs : List Char) (acc : List Json) :
    Option (Json × List Char) :=
  match fuel with
  | 0 => none
  | fuel' + 1 =>
    match parseJValue fuel' cs with
    | none => none
    | some (v, r) =>
      match skipJsonWs r with
      | ',' :: r2 => parseJArrElems fuel' r2 (v :: acc)
      | ']' :: r2 => some (.arr (v :: acc).reverse, r2)
      | _ => none

def parseJObjElems (fuel : Nat) (cs : List Char)
    (acc : List (String × Json)) : Option (Json × List Char) :=
  match fuel with
  | 0 => none
  | fuel' + 1 =>
    match skipJsonWs cs with
    | '"' :: r =>
      match jstrGo r [] with
      | none => none
      | some (kcs, r2) =>
        match skipJsonWs r2 with
        | ':' :: r3 =>
          match parseJValue fuel' r3 with
          | none => none
          | some (v, r4) =>
            let acc' := insertEntry acc (String.mk kcs) v
            match skipJsonWs r4 with
            | ',' :: r5 => parseJObjElems fuel' r5 acc'
            | '\x7d' :: r5 => some (.obj acc', r5)
            | _ => none
        | _ => none
    | _ => none

end

/-- Model of `json.loads` on a list of characters: parse one value and
require only whitespace to remain ("Extra data" otherwise). -/
def parseJsonChars (cs : List Char) : Option Json :=
  match parseJValue (cs.length + 1) cs with
  | some (j, rest) => if (skipJsonWs rest).isEmpty then some j else none
  | none => none

/-- Model of `json.loads` on a string. -/
def Json.parse (s : String) : Option Json :=
  parseJsonChars s.data

/-! ## Tool-call extraction

Models of `parse_tool_calls` and `_parse_single_tool_call`
(src/mlx_backend/server.py lines 170-284).  A normalized call
`{"id": ..., "function": {"index": ..., "name": ..., "arguments": ...}}`
is modelled by `ToolCall`; `id` and `name` stay `Json` because the source
copies whatever value the model produced (only Python truthiness of the
name is checked). -/

structure ToolCall where
  id : Json
  index : Nat
  name : Json
  arguments : Json

/-- Lines 268-275: coerce `arguments`.  A string is parsed as JSON with a
`{"raw": s}` fallback; a dict is kept; anything else becomes `{}`.  Note
that a string that parses to a non-dict is kept as that non-dict, exactly
as in the source (`elif` is not re-entered after `json.loads` succeeds). -/
def coerceArgs (a : Json) : Json :=
  match a with
  | .str s =>
    match Json.parse s with
    | some j => j
    | none => .obj [("raw", .str s)]
  | .obj es => .obj es
  | _ => .obj []

/-- `_parse_single_tool_call(call, idx)`, lines 238-284. -/
def parseSingleToolCall (call : Json) (idx : Nat) : Option ToolCall :=
  match call with
  | .obj es =>
    let np : Option Json × Json :=
      match lookupJ es "function" with
      | some f =>
        match f with
        | .obj fes =>
          (lookupJ fes "name", (lookupJ fes "arguments").getD (.obj []))
        | _ => (none, .obj [])
      | none =>
        match lookupJ es "name" with
        | some n => (some n, (lookupJ es "arguments").getD (.obj []))
        | none =>
          match es with
          | [(k, .obj ves)] => (some (.str k), .obj ves)
          | _ => (none, .obj [])
    match np.1 with
    | none => none
    | some nj =>
      if nj.falsy then none
      else
        let idj : Json :=
          match lookupJ es "id" with
          | some j => if j.falsy then .str ("call_" ++ toString idx) else j
          | none => .str ("call_" ++ toString idx)
        some ⟨idj, idx, nj, coerceArgs np.2⟩
  | _ => none

/-- Lines 208-230: normalize one parsed JSON candidate under the three
accepted container shapes. -/
def normalizeCalls (j : Json) : List ToolCall :=
  match j with
  | .obj es =>
    if (lookupJ es "tool_calls").isSome then
      match lookupJ es "tool_calls" with
      | some (.arr calls) =>
        calls.enum.filterMap (fun ic => parseSingleToolCall ic.2 ic.1)
      | _ => []
    else
      match parseSingleToolCall (.obj es) 0 with
      | some p => [p]
      | none => []
  | .arr xs => xs.enum.filterMap (fun ic => parseSingleToolCall ic.2 ic.1)
  | _ => []

/-- Lines 185-196: the left-to-right bracket scan.  `depth` is an `Int`
because unmatched closers drive the Python counter negative; `cur` is the
candidate span being accumulated (in reverse), `none` when `start == -1`. -/
def scanGo (depth : Int) (cur : Option (List Char))
    (acc : List (List Char)) : List Char → List (List Char)
  | [] => acc.reverse
  | c :: rest =>
    if c = '\x7b' ∨ c = '[' then
      let cur' := if depth = 0 then some [c] else cur.map (fun l => c :: l)
      scanGo (depth + 1) cur' acc rest
    else if c = '\x7d' ∨ c = ']' then
      match cur with
      | some l =>
        if depth - 1 = 0 then
          scanGo (depth - 1) none ((c :: l).reverse :: acc) rest
        else scanGo (depth - 1) (some (c :: l)) acc rest
      | none => scanGo (depth - 1) none acc rest
    else scanGo depth (cur.map (fun l => c :: l)) acc rest

def candidatesOf (t : List Char) : List (List Char) :=
  scanGo 0 none [] t

/-- Lines 202-233: try each candidate in order; the first one that parses
as JSON and normalizes to a non-empty call list wins. -/
def tryCandidates : List (List Char) → Option (List ToolCall)
  | [] => none
  | c :: rest =>
    match parseJsonChars c with
    | none => tryCandidates rest
    | some j =>
      let n := normalizeCalls j
      if n.isEmpty then tryCandidates rest else some n

/-- `parse_tool_calls(text)`, lines 170-235. -/
def parse_tool_calls (text : String) : Option (List ToolCall) :=
  let t := pyStripChars text.data
  let cands := candidatesOf t
  let cands := if cands.isEmpty then [t] else cands
  tryCandidates cands

/-- One candidate trial, as the claim describes it: accepted iff it parses
as JSON and normalizes to at least one call. -/
def candAccept (c : List Char) : Option (List ToolCall) :=
  match parseJsonChars c with
  | none => none
  | some j =>
    let n := normalizeCalls j
    if n.isEmpty then none else some n

/-- The extractor exactly as claim C4 states it: only the spans closed by
the bracket scan are candidates; no whole-text fallback. -/
def specExtractClaimed (text : String) : Option (List ToolCall) :=
  (candidatesOf (pyStripChars text.data)).findSome? candAccept

/-- The candidate list the source actually tries: the scan spans, or the
whole stripped text when the scan produced none. -/
def effCandidates (text : String) : List (List Char) :=
  let t := pyStripChars text.data
  let cands := candidatesOf t
  if cands.isEmpty then [t] else cands

/-- The extractor as claim C4 must be amended: first accepted candidate of
`effCandidates` (scan spans, with the whole stripped text as fallback when
the scan closes no span). -/
def specExtractAmended (text : String) : Option (List ToolCall) :=
  (effCandidates text).findSome? candAccept

/-! ## Generation orchestrator

Model of `MLXModelManager.generate` (lines 488-671) and
`_generate_with_vision` (lines 673-818).  The inference engine, the
tokenizer and the sampler are abstracted into `GenEnv`: `textStream` is
the lazy token sequence `mlx_lm.stream_generate` returns for the sampler
parameters passed to it, given as the list of produced items followed by
an optional exception; `tokenize`/`samplerResult` are the outcomes of
`tokenizer.encode` and `make_sampler`.  The vision prompt formatting
(image placeholder, chat template) only feeds the external engine and is
absorbed into `visionItems`/`vlmOutput`. -/

structure CompletionResponse where
  content : String := ""
  done_reason : String := ""
  done : Bool := false
  prompt_eval_count : Nat := 0
  prompt_eval_duration : Nat := 0
  eval_count : Nat := 0
  eval_duration : Nat := 0
  logprobs : Option (List Unit) := none
  tool_calls : Option (List ToolCall) := none

inductive GenError where
  | valueError (msg : String)
  | runtimeError (msg : String)
  deriving DecidableEq

/-- One item of the `mlx_lm.stream_generate` iterator: a response object
with a `text` attribute, or one without (skipped by the loop). -/
inductive StreamItem where
  | tok (text : String)
  | other

def tokCount : List StreamItem → Nat
  | [] => 0
  | .tok _ :: t => 1 + tokCount t
  | .other :: t => tokCount t

/-- The engine iterator: the items it yields in order, then optionally an
exception raised when the next item is requested. -/
structure EngineRun where
  items : List StreamItem
  raisesAfter : Option String

structure SamplerParams where
  temp : ℚ
  top_p : ℚ
  top_k : ℤ

structure GenEnv where
  modelLoaded : Bool
  isVisionModel : Bool
  vlmAvailable : Bool
  decodedImages : Nat
  tokenize : Except String Nat
  samplerResult : Except String Unit
  textStream : SamplerParams → EngineRun
  vlmImportError : Option String
  vlmHasStream : Bool
  visionItems : List String
  visionRaises : Option String
  vlmOutput : Except String String

structure GenArgs where
  prompt : String
  temperature : ℚ
  top_k : ℤ
  top_p : ℚ
  num_predict : ℤ
  repeat_penalty : ℚ
  images : List String

/-- Lines 517-535: the validation prelude, returning the message of the
first `ValueError` raised, if any. -/
def validateGen (args : GenArgs) : Option String :=
  if args.prompt.isEmpty then some "Prompt must be a non-empty string"
  else if args.prompt.length > 8192 then
    some "Prompt is too long (max 8192 characters)"
  else if ¬ (0 ≤ args.temperature ∧ args.temperature ≤ 2) then
    some "Temperature must be between 0.0 and 2.0"
  else if ¬ (0 ≤ args.top_k ∧ args.top_k ≤ 1000) then
    some "Top-K must be between 0 and 1000"
  else if ¬ (0 ≤ args.top_p ∧ args.top_p ≤ 1) then
    some "Top-P must be between 0.0 and 1.0"
  else if ¬ (1 ≤ args.num_predict ∧ args.num_predict ≤ 131072) then
    some "Number of tokens to predict must be between 1 and 131072"
  else none

def promptValid (args : GenArgs) : Prop :=
  args.prompt.isEmpty = false ∧ ¬ args.prompt.length > 8192

instance : DecidablePred promptValid := fun args =>
  inferInstanceAs (Decidable (_ ∧ _))

/-- The four documented sampling ranges of claim C3 (the context window
bound on `num_predict` is 131072, the hard maximum context of line 534). -/
def paramsInRange (args : GenArgs) : Prop :=
  (0 ≤ args.temperature ∧ args.temperature ≤ 2) ∧
  (0 ≤ args.top_k ∧ args.top_k ≤ 1000) ∧
  (0 ≤ args.top_p ∧ args.top_p ≤ 1) ∧
  (1 ≤ args.num_predict ∧ args.num_predict ≤ 131072)

instance : DecidablePred paramsInRange := fun args =>
  inferInstanceAs (Decidable (_ ∧ _))

/-- Lines 541-546: `_decode_images` result after the non-vision drop. -/
def effDecodedImages (args : GenArgs) (env : GenEnv) : Nat :=
  let d0 := if args.images.isEmpty then 0 else env.decodedImages
  if d0 ≠ 0 ∧ ¬ env.isVisionModel then 0 else d0

/-- The warning logged at line 545 when images are dropped. -/
def imageDropWarns (args : GenArgs) (env : GenEnv) : List String :=
  if (if args.images.isEmpty then 0 else env.decodedImages) ≠ 0 ∧
      ¬ env.isVisionModel then
    ["Images provided but model is not a vision model. Images will be ignored."]
  else []

/-- Line 553: the condition routing to `_generate_with_vision`. -/
def visionPathTaken (args : GenArgs) (env : GenEnv) : Prop :=
  env.isVisionModel ∧ effDecodedImages args env ≠ 0 ∧ env.vlmAvailable

instance (args : GenArgs) (env : GenEnv) :
    Decidable (visionPathTaken args env) :=
  inferInstanceAs (Decidable (_ ∧ _))

/-- The non-streaming `mlx_vlm.generate` fallback (lines 766-789) was the
path taken. -/
def visionFallbackTaken (args : GenArgs) (env : GenEnv) : Prop :=
  visionPathTaken args env ∧ env.vlmImportError = none ∧
    env.vlmHasStream = false

def mkTokenEvent (t : String) (ptoks c : Nat) : CompletionResponse :=
  { content := t, done := false, prompt_eval_count := ptoks,
    eval_count := c }

def finalStopEvent (ptoks c : Nat) : CompletionResponse :=
  { content := "", done := true, done_reason := "stop",
    prompt_eval_count := ptoks, eval_count := c }

def errEvent (m : String) : CompletionResponse :=
  { content := m, done := true, done_reason := "error" }

/-- Lines 628-650: classification of a mid-stream engine exception. -/
def classifyGenError (m : String) : CompletionResponse :=
  let low := pyLower m
  errEvent
    (if pyContains low "out of memory" then
      "Error: Out of memory during generation. Try a smaller model or shorter prompt."
    else if pyContains low "timeout" then
      "Error: Generation timed out. Try a shorter prompt or fewer tokens."
    else "Error: Generation failed - " ++ m)

structure TLoopOut where
  events : List CompletionResponse
  warns : List String
  broke : Bool
  count : Nat

/-- The warning text of line 607. -/
def runawayWarning (c : Nat) (np : ℤ) : String :=
  "Generated more tokens than requested (" ++ toString c ++ " > " ++
    toString np ++ ")"

/-- Lines 591-626: the text-path token loop.  `count` is both
`token_count` and `max_tokens_generated`, which the source increments in
lockstep.  `broke` records whether the loop exited via `break` (in which
case a pending iterator exception is never raised).  Note the runaway
guard fires before the yield, so its branch emits no event. -/
def textLoop (np : ℤ) (ptoks : Nat) : List StreamItem → Nat → TLoopOut
  | [], c => ⟨[], [], false, c⟩
  | .other :: rest, c => textLoop np ptoks rest c
  | .tok t :: rest, c =>
    if ((c + 1 : Nat) : ℤ) > np * 2 then
      ⟨[], [runawayWarning (c + 1) np], true, c + 1⟩
    else if ((c + 1 : Nat) : ℤ) ≥ np then
      ⟨[mkTokenEvent t ptoks (c + 1)], [], true, c + 1⟩
    else
      let r := textLoop np ptoks rest (c + 1)
      ⟨mkTokenEvent t ptoks (c + 1) :: r.events, r.warns, r.broke, r.count⟩

/-- Lines 566-663: the standard text generation path (after validation and
image handling), returning the yielded events and the warnings logged. -/
def textGenerate (args : GenArgs) (env : GenEnv) (warns0 : List String) :
    List CompletionResponse × List String :=
  match env.tokenize with
  | .error m =>
    ([errEvent ("Error: Failed to tokenize prompt: " ++ m)], warns0)
  | .ok ptoks =>
    if ptoks > 131072 then
      ([errEvent ("Error: Failed to tokenize prompt: Prompt exceeds maximum context length (131072 tokens, got " ++
        toString ptoks ++ ")")], warns0)
    else
      match env.samplerResult with
      | .error m =>
        ([errEvent ("Error: Failed to create sampler: " ++ m)], warns0)
      | .ok _ =>
        let run := env.textStream ⟨args.temperature, args.top_p, args.top_k⟩
        let r := textLoop args.num_predict ptoks run.items 0
        match run.raisesAfter, r.broke with
        | some m, false => (r.events ++ [classifyGenError m], warns0 ++ r.warns)
        | _, _ => (r.events ++ [finalStopEvent ptoks r.count], warns0 ++ r.warns)

def visionTokEvent (t : String) (c : Nat) : CompletionResponse :=
  { content := t, done := false, eval_count := c }

/-- Line 779: `len(output.split()) if output else 0`. -/
def visionWordCount (out : String) : Nat :=
  if out.isEmpty then 0 else pyWordCount out

/-- Lines 782-789: the single chunk of the non-streaming fallback. -/
def visionChunkEvent (out : String) : CompletionResponse :=
  { content := out, done := false, eval_count := visionWordCount out }

/-- Lines 737-765: the vision streaming loop.  Every item yields an event
(`str(response)` is the fallback text), so no item is skipped. -/
def visionLoop (np : ℤ) : List String → Nat →
    List CompletionResponse × Bool × Nat
  | [], c => ([], false, c)
  | t :: rest, c =>
    if ((c + 1 : Nat) : ℤ) ≥ np then ([visionTokEvent t (c + 1)], true, c + 1)
    else
      let r := visionLoop np rest (c + 1)
      (visionTokEvent t (c + 1) :: r.1, r.2.1, r.2.2)

def visionFinal (c : Nat) : CompletionResponse :=
  { content := "", done := true, done_reason := "stop", eval_count := c }

/-- `_generate_with_vision`, lines 673-818 (called only when mlx-vlm is
available; `vlmImportError` models the in-function import failing). -/
def visionGenerate (args : GenArgs) (env : GenEnv) (warns0 : List String) :
    List CompletionResponse × List String :=
  match env.vlmImportError with
  | some m => ([errEvent ("Error: " ++ m)], warns0)
  | none =>
    if env.vlmHasStream then
      let r := visionLoop args.num_predict env.visionItems 0
      match env.visionRaises, r.2.1 with
      | some m, false =>
        (r.1 ++ [errEvent ("Error: Vision generation failed - " ++ m)], warns0)
      | _, _ => (r.1 ++ [visionFinal r.2.2], warns0)
    else
      match env.vlmOutput with
      | .error m =>
        ([errEvent ("Error: Vision generation failed - " ++ m)], warns0)
      | .ok out =>
        ([visionChunkEvent out, visionFinal (visionWordCount out)], warns0)

/-- `MLXModelManager.generate`: `Except.error` is a `ValueError` /
`RuntimeError` raised before the first yield; `Except.ok` carries the
yielded event sequence and the warnings logged. -/
def generate (args : GenArgs) (env : GenEnv) :
    Except GenError (List CompletionResponse × List String) :=
  match validateGen args with
  | some m => .error (.valueError m)
  | none =>
    if ¬ env.modelLoaded then .error (.runtimeError "No model loaded")
    else
      let warns0 := imageDropWarns args env
      if visionPathTaken args env then .ok (visionGenerate args env warns0)
      else .ok (textGenerate args env warns0)

/-! ## Streaming encoder, tool-calling path

Model of the `response_generator` branch of `completion_endpoint`
(lines 1040-1068) for a request with a non-empty tools list: every event
from `generate` is buffered, then a single final event is emitted. -/

/-- The single event emitted on the tool-calling path (the raised-before-
first-yield case propagates as `Except.error`). -/
def toolPathEvents (args : GenArgs) (env : GenEnv) :
    Except GenError (List CompletionResponse) :=
  (generate args env).map fun r =>
    let evs := r.1
    let combined := pyStrip (String.join (evs.map (fun e => e.content)))
    let toolCalls := parse_tool_calls combined
    let base := evs.getLastD {}
    [{ base with
        content := combined,
        done := true,
        done_reason :=
          if (toolCalls.getD []).isEmpty then "stop" else "tool_calls",
        tool_calls := toolCalls }]

/-! ## Model lifecycle manager

Model of `MLXModelManager.load_model` (lines 349-450).  The filesystem
probes, vision-config detection and the mlx-lm / mlx-vlm loaders are
abstracted into `LoadEnv`; loaded Python objects are abstract `Nat`
tokens.  The result triple is (state after the call, outcome, number of
invocations of an underlying loader (`load_vlm` / `get_model`)). -/

structure MgrState where
  model : Option Nat
  tokenizer : Option Nat
  processor : Option Nat
  image_processor : Option Nat
  config : Option Nat
  current_model_name : Option String
  is_vision_model : Bool
  deriving DecidableEq

/-- The `Unloaded` value of every field (`__init__`, lines 291-297, and
the rollback block, lines 433-439). -/
def unloadedState : MgrState :=
  ⟨none, none, none, none, none, none, false⟩

inductive LoadError where
  | valueError (msg : String)
  | runtimeError (msg : String)
  deriving DecidableEq

structure LoadEnv where
  baseDir : String
  localExists : Bool
  localHasConfig : Bool
  localHasWeights : Bool
  vlmDetected : Bool
  vlmAvailable : Bool
  loadVlm : Except String (Option Nat × Option Nat)
  loadConfig : Except String Nat
  loadText : Except String (Option Nat × Option Nat)

/-- Lines 441-450: substring classification of a load failure. -/
def classifyLoadFailure (name msg : String) : String :=
  let low := pyLower msg
  if pyContains low "not found" ∨ pyContains msg "404" then
    "Model not found: " ++ name ++ ". Please check the model name and try again."
  else if pyContains low "connection" ∨ pyContains low "network" then
    "Network error while loading model: " ++ msg ++
      ". Please check your internet connection."
  else if pyContains low "memory" ∨ pyContains low "out of memory" then
    "Out of memory while loading model: " ++ msg ++
      ". Try a smaller model or free up system resources."
  else "Failed to load model: " ++ msg

/-- `load_model(name)`.  Any exception inside the `try` block clears all
seven fields before the classified `RuntimeError` is raised. -/
def load_model (st : MgrState) (name : String) (env : LoadEnv) :
    MgrState × Except LoadError Unit × Nat :=
  if name.isEmpty then
    (st, .error (.valueError "Model name must be a non-empty string"), 0)
  else if name.length > 256 then
    (st, .error (.valueError "Model name is too long (max 256 characters)"), 0)
  else if st.current_model_name = some name then (st, .ok (), 0)
  else
    let localPath := env.baseDir ++ "/" ++ (name.replace "/" "_")
    let fail := fun (m : String) (k : Nat) =>
      (unloadedState,
        Except.error (LoadError.runtimeError (classifyLoadFailure name m)), k)
    if env.localExists ∧ ¬ env.localHasConfig then
      fail ("Invalid MLX model directory: missing config.json in " ++ localPath) 0
    else if env.localExists ∧ ¬ env.localHasWeights then
      fail ("Invalid MLX model directory: no model weights found in " ++ localPath) 0
    else if env.vlmDetected ∧ env.vlmAvailable then
      match env.loadVlm with
      | .error m => fail m 1
      | .ok (mm, pp) =>
        match env.loadConfig with
        | .error m => fail m 1
        | .ok cfg =>
          if mm = none then fail "Model loading returned None" 1
          else if pp = none then fail "Tokenizer loading returned None" 1
          else
            ({ model := mm, tokenizer := pp, processor := pp,
               image_processor := pp, config := some cfg,
               current_model_name := some name, is_vision_model := true },
             .ok (), 1)
    else
      match env.loadText with
      | .error m => fail m 1
      | .ok (mm, tt) =>
        if mm = none then fail "Model loading returned None" 1
        else if tt = none then fail "Tokenizer loading returned None" 1
        else
          ({ model := mm, tokenizer := tt, processor := none,
             image_processor := none, config := none,
             current_model_name := some name, is_vision_model := false },
           .ok (), 1)

/-! ## Embedding normalization

Model of the final normalization step of `MLXModelManager.embed`
(lines 977-979): `norm = sqrt(sum(e * e))`,
`e = e / maximum(norm, 1e-12)`, applied over the hidden dimension.  The
pooled vector is idealized over the reals; floating-point rounding is the
only part not modelled. -/

def sumSq (v : List ℝ) : ℝ := (v.map fun x => x * x).sum

noncomputable def l2norm (v : List ℝ) : ℝ := Real.sqrt (sumSq v)

noncomputable def embDenom (v : List ℝ) : ℝ := max (l2norm v) 1e-12

noncomputable def normalizeEmbedding (v : List ℝ) : List ℝ :=
  v.map fun x => x / embDenom v

/-! ## Concrete fixtures used by witnesses and counterexamples -/

def baseArgs : GenArgs :=
  { prompt := "hi", temperature := 1, top_k := 40, top_p := 1,
    num_predict := 4, repeat_penalty := 1, images := [] }

def baseEnv (run : EngineRun) : GenEnv :=
  { modelLoaded := true, isVisionModel := false, vlmAvailable := false,
    decodedImages := 0, tokenize := .ok 1, samplerResult := .ok (),
    textStream := fun _ => run, vlmImportError := none,
    vlmHasStream := false, visionItems := [], visionRaises := none,
    vlmOutput := .ok "" }

/-- The model output `{"name": "f", "arguments": "[1]"}`: the arguments
value is the JSON string `"[1]"`. -/
def c2text : String := "\x7b\"name\": \"f\", \"arguments\": \"[1]\"\x7d"

/-- A tool-call payload whose function name contains an opening brace, so
the bracket scan never returns to depth zero and closes no span; only the
whole-text fallback of lines 199-200 finds the call. -/
def c4text : String := "\x7b\"name\":\"f\x7b\",\"arguments\":\x7b\x7d\x7d"

/-- The claim C1 invariant as a boolean check on an event sequence:
exactly one done event, last, whose eval_count equals the number of
preceding done=false events. -/
def c1Check (evs : List CompletionResponse) : Bool :=
  match evs.getLast? with
  | none => false
  | some fin =>
    fin.done && evs.dropLast.all (fun e => !e.done) &&
      (fin.eval_count == (evs.dropLast.filter (fun e => !e.done)).length)

def badArgs : GenArgs := { baseArgs with temperature := 3 }

def envRunA : GenEnv := baseEnv ⟨[.tok "a"], none⟩

def envRunB : GenEnv := baseEnv ⟨[.tok "b", .tok "c"], some "x"⟩

/-- A manager state with a model fully loaded. -/
def loadedSt : MgrState :=
  ⟨some 1, some 2, none, none, none, some "m", false⟩

def longName : String := String.mk (List.replicate 257 'a')

def loadEnv0 : LoadEnv :=
  { baseDir := "models", localExists := false, localHasConfig := false,
    localHasWeights := false, vlmDetected := false, vlmAvailable := false,
    loadVlm := .ok (none, none), loadConfig := .ok 0,
    loadText := .ok (some 3, some 4) }

def envFailLoad : LoadEnv := { loadEnv0 with loadText := .error "boom 404" }

def envOkLoad : LoadEnv := loadEnv0

def loadedSt2 : MgrState :=
  ⟨some 3, some 4, none, none, none, some "org/m", false⟩

def c5WitnessEvent : CompletionResponse :=
  { content := "hi", done_reason := "stop", done := true,
    prompt_eval_count := 1, eval_count := 1 }


/-! ## Helper lemmas -/

example : Json.parse "\x7b\"a\": 1\x7d" =
    some (.obj [("a", .num "1")]) := rfl
example : Json.parse "[1, \"x\"]" =
    some (.arr [.num "1", .str "x"]) := rfl
example : Json.parse "tru" = none := rfl
example : Json.parse "  42  " = some (.num "42") := rfl

-- Sanity checks against the spec's worked examples (section 8).
example :
    (parse_tool_calls "\x7b\"tool_calls\":[\x7b\"function\":\x7b\"name\":\"get_weather\",\"arguments\":\x7b\"location\":\"SF\"\x7d\x7d\x7d]\x7d").map
      (fun l => l.map (fun c => (c.name, c.arguments))) =
    some [(.str "get_weather", .obj [("location", .str "SF")])] := rfl


theorem tryCandidates_eq_findSome (l : List (List Char)) :
    tryCandidates l = l.findSome? candAccept := by
  induction l with
  | nil => rfl
  | cons c rest ih =>
    simp only [tryCandidates, candAccept, List.findSome?_cons]
    cases parseJsonChars c with
    | none => simpa using ih
    | some j =>
      by_cases h : (normalizeCalls j).isEmpty <;> simp [h, ih]

theorem tryCandidates_ne_nil (l : List (List Char))
    (calls : List ToolCall) (h : tryCandidates l = some calls) :
    calls ≠ [] := by
  induction l with
  | nil => simp [tryCandidates] at h
  | cons c rest ih =>
    simp only [tryCandidates] at h
    cases hp : parseJsonChars c with
    | none => rw [hp] at h; exact ih h
    | some j =>
      simp only [hp] at h
      by_cases he : (normalizeCalls j).isEmpty
      · rw [if_pos he] at h; exact ih h
      · rw [if_neg he] at h
        cases h
        simpa [List.isEmpty_iff] using he

theorem parse_tool_calls_ne_nil (t : String) (calls : List ToolCall)
    (h : parse_tool_calls t = some calls) : calls ≠ [] := by
  unfold parse_tool_calls at h
  exact tryCandidates_ne_nil _ _ h

theorem validateGen_eq_none (args : GenArgs) (h : validateGen args = none) :
    args.prompt.isEmpty = false ∧ args.prompt.length ≤ 8192 ∧
      paramsInRange args := by
  unfold validateGen at h
  split_ifs at h with h1 h2 h3 h4 h5 h6
  exact ⟨by simpa using h1, by omega, h3, h4, h5, h6⟩

theorem validateGen_eq_none_of (args : GenArgs)
    (h1 : args.prompt.isEmpty = false) (h2 : args.prompt.length ≤ 8192)
    (hr : paramsInRange args) : validateGen args = none := by
  obtain ⟨ht, hk, hp, hn⟩ := hr
  unfold validateGen
  rw [if_neg (by simp [h1]), if_neg (by omega), if_neg (not_not.mpr ht),
    if_neg (not_not.mpr hk), if_neg (not_not.mpr hp), if_neg (not_not.mpr hn)]

theorem validateGen_none_iff (args : GenArgs) (hp : promptValid args) :
    validateGen args = none ↔ paramsInRange args := by
  constructor
  · exact fun h => (validateGen_eq_none args h).2.2
  · intro hr
    exact validateGen_eq_none_of args hp.1 (Nat.not_lt.mp hp.2) hr

theorem textLoop_nil (np : ℤ) (pt c : Nat) :
    textLoop np pt [] c = ⟨[], [], false, c⟩ := rfl

theorem textLoop_other (np : ℤ) (pt : Nat) (rest : List StreamItem)
    (c : Nat) : textLoop np pt (.other :: rest) c = textLoop np pt rest c :=
  rfl

theorem textLoop_tok (np : ℤ) (pt : Nat) (t : String)
    (rest : List StreamItem) (c : Nat) :
    textLoop np pt (.tok t :: rest) c =
      if ((c + 1 : Nat) : ℤ) > np * 2 then
        ⟨[], [runawayWarning (c + 1) np], true, c + 1⟩
      else if ((c + 1 : Nat) : ℤ) ≥ np then
        ⟨[mkTokenEvent t pt (c + 1)], [], true, c + 1⟩
      else
        ⟨mkTokenEvent t pt (c + 1) :: (textLoop np pt rest (c + 1)).events,
         (textLoop np pt rest (c + 1)).warns,
         (textLoop np pt rest (c + 1)).broke,
         (textLoop np pt rest (c + 1)).count⟩ := rfl

theorem textLoop_spec (np : ℤ) (pt : Nat) (hnp : 1 ≤ np)
    (items : List StreamItem) :
    ∀ c : Nat, (c : ℤ) < np →
      (textLoop np pt items c).warns = [] ∧
      (textLoop np pt items c).count =
        c + (textLoop np pt items c).events.length ∧
      (∀ e ∈ (textLoop np pt items c).events, e.done = false) ∧
      ((textLoop np pt items c).broke = true →
        ((textLoop np pt items c).count : ℤ) = np) ∧
      ((textLoop np pt items c).broke = false →
        (textLoop np pt items c).events.length = tokCount items) ∧
      ((np - c).toNat ≤ tokCount items →
        (textLoop np pt items c).broke = true) := by
  induction items with
  | nil =>
    intro c hc
    rw [textLoop_nil]
    refine ⟨rfl, by simp, by simp, by simp, by simp [tokCount], ?_⟩
    intro h
    exfalso
    simp only [tokCount] at h
    omega
  | cons head tail ih =>
    cases head with
    | other =>
      intro c hc
      rw [textLoop_other]
      simpa only [tokCount] using ih c hc
    | tok t =>
      intro c hc
      have hguard : ¬ ((c + 1 : Nat) : ℤ) > np * 2 := by push_cast; omega
      rw [textLoop_tok, if_neg hguard]
      by_cases hb : ((c + 1 : Nat) : ℤ) ≥ np
      · rw [if_pos hb]
        refine ⟨rfl, by simp, ?_, ?_, by simp, fun _ => rfl⟩
        · intro e he
          simp only [List.mem_singleton] at he
          subst he
          rfl
        · intro _
          push_cast
          omega
      · rw [if_neg hb]
        have hc1 : ((c + 1 : Nat) : ℤ) < np := by
          push_cast at hb ⊢
          omega
        obtain ⟨ihw, ihc, ihd, ihbt, ihbf, ihtc⟩ := ih (c + 1) hc1
        refine ⟨ihw, ?_, ?_, ihbt, ?_, ?_⟩
        · simp only [List.length_cons]
          omega
        · intro e he
          rcases List.mem_cons.mp he with rfl | he'
          · rfl
          · exact ihd e he'
        · intro hbf
          have hlen := ihbf hbf
          simp only [List.length_cons, tokCount]
          omega
        · intro htc
          apply ihtc
          simp only [tokCount] at htc
          omega

theorem visionLoop_nil (np : ℤ) (c : Nat) :
    visionLoop np [] c = ([], false, c) := rfl

theorem visionLoop_cons (np : ℤ) (t : String) (rest : List String)
    (c : Nat) :
    visionLoop np (t :: rest) c =
      if ((c + 1 : Nat) : ℤ) ≥ np then ([visionTokEvent t (c + 1)], true, c + 1)
      else
        (visionTokEvent t (c + 1) :: (visionLoop np rest (c + 1)).1,
         (visionLoop np rest (c + 1)).2.1,
         (visionLoop np rest (c + 1)).2.2) := rfl

theorem visionLoop_spec (np : ℤ) (items : List String) :
    ∀ c : Nat,
      (visionLoop np items c).2.2 = c + (visionLoop np items c).1.length ∧
      (∀ e ∈ (visionLoop np items c).1, e.done = false) := by
  induction items with
  | nil => intro c; rw [visionLoop_nil]; exact ⟨by simp, by simp⟩
  | cons t rest ih =>
    intro c
    rw [visionLoop_cons]
    by_cases hb : ((c + 1 : Nat) : ℤ) ≥ np
    · rw [if_pos hb]
      refine ⟨by simp, ?_⟩
      intro e he
      simp only [List.mem_singleton] at he
      subst he
      rfl
    · rw [if_neg hb]
      obtain ⟨ihc, ihd⟩ := ih (c + 1)
      refine ⟨?_, ?_⟩
      · simp only [List.length_cons]
        omega
      · intro e he
        rcases List.mem_cons.mp he with rfl | he'
        · rfl
        · exact ihd e he'

theorem errEvent_done_reason (m : String) :
    (errEvent m).done_reason = "error" := rfl

theorem errEvent_eval_count (m : String) : (errEvent m).eval_count = 0 := rfl

theorem classifyGenError_done_reason (m : String) :
    (classifyGenError m).done_reason = "error" := rfl

theorem finalStopEvent_done_reason (p c : Nat) :
    (finalStopEvent p c).done_reason = "stop" := rfl

/-- Shape of every text-path run: one terminal event, preceded only by
non-terminal token events; an error terminal always has `eval_count = 0`;
a stop terminal counts exactly the events before it.  The warning list is
exactly the incoming one: the runaway guard of line 606 can never fire
because the `token_count >= num_predict` break of line 625 is reached
first. -/
theorem textGenerate_spec (args : GenArgs) (env : GenEnv)
    (warns0 : List String) (hnp : 1 ≤ args.num_predict) :
    ∃ pre fin,
      textGenerate args env warns0 = (pre ++ [fin], warns0) ∧
      (∀ e ∈ pre, e.done = false) ∧ fin.done = true ∧
      (fin.done_reason = "error" → fin.eval_count = 0) ∧
      (fin.done_reason = "stop" → fin.eval_count = pre.length) := by
  unfold textGenerate
  cases htok : env.tokenize with
  | error m =>
    dsimp only
    refine ⟨[], errEvent ("Error: Failed to tokenize prompt: " ++ m), rfl,
      by simp, rfl, fun _ => rfl, fun h => ?_⟩
    rw [errEvent_done_reason] at h
    exact absurd h (by decide)
  | ok ptoks =>
    dsimp only
    by_cases hlim : ptoks > 131072
    · rw [if_pos hlim]
      refine ⟨[],
        errEvent ("Error: Failed to tokenize prompt: Prompt exceeds maximum context length (131072 tokens, got " ++
          toString ptoks ++ ")"), rfl,
        by simp, rfl, fun _ => rfl, fun h => ?_⟩
      rw [errEvent_done_reason] at h
      exact absurd h (by decide)
    · rw [if_neg hlim]
      cases hsam : env.samplerResult with
      | error m =>
        dsimp only
        refine ⟨[], errEvent ("Error: Failed to create sampler: " ++ m), rfl,
          by simp, rfl, fun _ => rfl, fun h => ?_⟩
        rw [errEvent_done_reason] at h
        exact absurd h (by decide)
      | ok u =>
        dsimp only
        obtain ⟨hw, hcnt, hdone, -, -, -⟩ :=
          textLoop_spec args.num_predict ptoks hnp
            (env.textStream
              ⟨args.temperature, args.top_p, args.top_k⟩).items 0
            (by omega)
        cases hra : (env.textStream
            ⟨args.temperature, args.top_p, args.top_k⟩).raisesAfter with
        | some m =>
          cases hbr : (textLoop args.num_predict ptoks (env.textStream ⟨args.temperature, args.top_p, args.top_k⟩).items 0).broke with
          | false =>
            refine ⟨(textLoop args.num_predict ptoks (env.textStream ⟨args.temperature, args.top_p, args.top_k⟩).items 0).events, classifyGenError m, ?_, hdone, rfl,
              fun _ => rfl, fun h => ?_⟩
            · dsimp only
              rw [hw]
              simp
            · rw [classifyGenError_done_reason] at h
              exact absurd h (by decide)
          | true =>
            refine ⟨(textLoop args.num_predict ptoks (env.textStream ⟨args.temperature, args.top_p, args.top_k⟩).items 0).events, finalStopEvent ptoks (textLoop args.num_predict ptoks (env.textStream ⟨args.temperature, args.top_p, args.top_k⟩).items 0).count, ?_, hdone,
              rfl, fun h => ?_, fun _ => by
                simpa [finalStopEvent] using hcnt⟩
            · dsimp only
              rw [hw]
              simp
            · rw [finalStopEvent_done_reason] at h
              exact absurd h (by decide)
        | none =>
          refine ⟨(textLoop args.num_predict ptoks (env.textStream ⟨args.temperature, args.top_p, args.top_k⟩).items 0).events, finalStopEvent ptoks (textLoop args.num_predict ptoks (env.textStream ⟨args.temperature, args.top_p, args.top_k⟩).items 0).count, ?_, hdone,
            rfl, fun h => ?_, fun _ => by
              simpa [finalStopEvent] using hcnt⟩
          · dsimp only
            rw [hw]
            simp
          · rw [finalStopEvent_done_reason] at h
            exact absurd h (by decide)

theorem visionFinal_done_reason (c : Nat) :
    (visionFinal c).done_reason = "stop" := rfl

/-- Shape of every vision-path run: one terminal event after non-terminal
events only; error terminals carry `eval_count = 0`; a stop terminal on
the streaming sub-path counts the preceding events, while the
non-streaming fallback (no `stream_generate` in mlx-vlm) repeats the word
count of its single buffered chunk. -/
theorem visionGenerate_spec (args : GenArgs) (env : GenEnv)
    (warns0 : List String) :
    ∃ pre fin,
      visionGenerate args env warns0 = (pre ++ [fin], warns0) ∧
      (∀ e ∈ pre, e.done = false) ∧ fin.done = true ∧
      (fin.done_reason = "error" → fin.eval_count = 0) ∧
      (fin.done_reason = "stop" →
        (env.vlmImportError = none ∧ env.vlmHasStream = false) ∨
        fin.eval_count = pre.length) := by
  unfold visionGenerate
  cases him : env.vlmImportError with
  | some m =>
    dsimp only
    refine ⟨[], errEvent ("Error: " ++ m), rfl, by simp, rfl,
      fun _ => rfl, fun h => ?_⟩
    rw [errEvent_done_reason] at h
    exact absurd h (by decide)
  | none =>
    dsimp only
    by_cases hstr : env.vlmHasStream
    · rw [if_pos hstr]
      obtain ⟨hcnt, hdone⟩ :=
        visionLoop_spec args.num_predict env.visionItems 0
      cases hra : env.visionRaises with
      | some m =>
        cases hbr : (visionLoop args.num_predict env.visionItems 0).2.1 with
        | false =>
          refine ⟨(visionLoop args.num_predict env.visionItems 0).1,
            errEvent ("Error: Vision generation failed - " ++ m), ?_, hdone,
            rfl, fun _ => rfl, fun h => ?_⟩
          · dsimp only
          · rw [errEvent_done_reason] at h
            exact absurd h (by decide)
        | true =>
          refine ⟨(visionLoop args.num_predict env.visionItems 0).1, visionFinal (visionLoop args.num_predict env.visionItems 0).2.2, ?_, hdone, rfl, fun h => ?_,
            fun _ => Or.inr (by simpa [visionFinal] using hcnt)⟩
          · dsimp only
          · rw [visionFinal_done_reason] at h
            exact absurd h (by decide)
      | none =>
        refine ⟨(visionLoop args.num_predict env.visionItems 0).1, visionFinal (visionLoop args.num_predict env.visionItems 0).2.2, ?_, hdone, rfl, fun h => ?_,
          fun _ => Or.inr (by simpa [visionFinal] using hcnt)⟩
        · dsimp only
        · rw [visionFinal_done_reason] at h
          exact absurd h (by decide)
    · rw [if_neg hstr]
      cases hout : env.vlmOutput with
      | error m =>
        dsimp only
        refine ⟨[],
          errEvent ("Error: Vision generation failed - " ++ m), rfl,
          by simp, rfl, fun _ => rfl, fun h => ?_⟩
        rw [errEvent_done_reason] at h
        exact absurd h (by decide)
      | ok out =>
        dsimp only
        refine ⟨[visionChunkEvent out], visionFinal (visionWordCount out),
          rfl, ?_, rfl, fun h => ?_,
          fun _ => Or.inl ⟨rfl, (Bool.not_eq_true _).mp hstr⟩⟩
        · intro e he
          simp only [List.mem_singleton] at he
          subst he
          rfl
        · rw [visionFinal_done_reason] at h
          exact absurd h (by decide)

/-- Case analysis for a run of `generate` that yields events. -/
theorem generate_ok_cases (args : GenArgs) (env : GenEnv)
    (evs : List CompletionResponse) (ws : List String)
    (h : generate args env = .ok (evs, ws)) :
    validateGen args = none ∧ env.modelLoaded = true ∧
      ((visionPathTaken args env ∧
        (evs, ws) = visionGenerate args env (imageDropWarns args env)) ∨
       (¬ visionPathTaken args env ∧
        (evs, ws) = textGenerate args env (imageDropWarns args env))) := by
  unfold generate at h
  cases hv : validateGen args with
  | some m => rw [hv] at h; cases h
  | none =>
    rw [hv] at h
    dsimp only at h
    by_cases hm : env.modelLoaded
    · rw [if_neg (not_not.mpr hm)] at h
      by_cases hvp : visionPathTaken args env
      · rw [if_pos hvp] at h
        injection h with h2
        exact ⟨rfl, hm, Or.inl ⟨hvp, h2.symm⟩⟩
      · rw [if_neg hvp] at h
        injection h with h2
        exact ⟨rfl, hm, Or.inr ⟨hvp, h2.symm⟩⟩
    · rw [if_pos hm] at h
      cases h

theorem sumSq_nonneg (v : List ℝ) : 0 ≤ sumSq v := by
  unfold sumSq
  apply List.sum_nonneg
  intro x hx
  obtain ⟨y, -, rfl⟩ := List.mem_map.mp hx
  exact mul_self_nonneg y

theorem l2norm_nonneg (v : List ℝ) : 0 ≤ l2norm v := Real.sqrt_nonneg _

theorem sumSq_map_div (v : List ℝ) (c : ℝ) (hc : c ≠ 0) :
    sumSq (v.map fun x => x / c) = sumSq v / (c * c) := by
  induction v with
  | nil => simp [sumSq]
  | cons a t ih =>
    simp only [sumSq, List.map_cons, List.sum_cons] at ih ⊢
    rw [ih]
    field_simp

theorem l2norm_map_div (v : List ℝ) (c : ℝ) (hc : 0 < c) :
    l2norm (v.map fun x => x / c) = l2norm v / c := by
  unfold l2norm
  rw [sumSq_map_div v c (ne_of_gt hc), Real.sqrt_div (sumSq_nonneg v),
    Real.sqrt_mul_self (le_of_lt hc)]

theorem l2norm_normalize (v : List ℝ) (h : (1e-12 : ℝ) ≤ l2norm v) :
    l2norm (normalizeEmbedding v) = 1 := by
  have hpos : (0 : ℝ) < l2norm v := lt_of_lt_of_le (by norm_num) h
  have hden : embDenom v = l2norm v := max_eq_left (le_trans (by norm_num) h)
  unfold normalizeEmbedding
  rw [hden, l2norm_map_div v _ hpos]
  exact div_self (ne_of_gt hpos)

theorem findSome?_none_iff {α β : Type} (f : α → Option β) (l : List α) :
    l.findSome? f = none ↔ ∀ x ∈ l, f x = none := by
  induction l with
  | nil => simp [List.findSome?]
  | cons a t ih =>
    rw [List.findSome?_cons]
    cases h : f a with
    | none => simp [h, ih]
    | some b => simp [h]

/-- C2: claim C2 asserts that after normalization no extracted call ever
carries non-mapping arguments.  The code violates this: for
`{"name": "f", "arguments": "[1]"}` the string `"[1]"` is parsed as JSON
(line 271) and the resulting *array* is kept, because the
`elif not isinstance(arguments, dict)` guard of line 274 is skipped once
the string branch was taken — contradicting the source's own
`# Ensure arguments is a dict` comment (line 268).  This theorem
evaluates the extractor at that failing input: it returns exactly one
call whose arguments value is the JSON array `[1]`, not a mapping. -/
theorem c2_arguments_not_mapping :
    (parse_tool_calls c2text).map
        (fun l => l.map (fun c => c.arguments.isObj)) = some [false] ∧
    (parse_tool_calls c2text).map
        (fun l => l.map (fun c => c.arguments)) =
      some [.arr [.num "1"]] :=
  ⟨rfl, rfl⟩

/-- C4 counterexample: on `c4text` the claimed extraction procedure (scan
spans only, "with no successful candidate the result is none") yields no
call, but `parse_tool_calls` falls back to trying the whole stripped text
(lines 199-200) and returns one call. -/
theorem c4_counterexample :
    (specExtractClaimed c4text).isNone = true ∧
    (parse_tool_calls c4text).isSome = true :=
  ⟨rfl, rfl⟩

/-- C4 (amended): `parse_tool_calls` scans left to right tracking
bracket nesting, tries each closed span in order of appearance, accepts
the first candidate that parses as JSON and normalizes to at least one
named call, rejects candidates that normalize to zero calls, and — the
amendment — when the scan closes no span at all it tries the whole
stripped text as a single fallback candidate; only if no candidate is
accepted is the result none. -/
theorem c4_extractor (t : String) :
    parse_tool_calls t = specExtractAmended t ∧
    (parse_tool_calls t = none ↔
      ∀ c ∈ effCandidates t, candAccept c = none) := by
  have he : parse_tool_calls t = (effCandidates t).findSome? candAccept := by
    unfold parse_tool_calls effCandidates
    exact tryCandidates_eq_findSome _
  exact ⟨he, by rw [he]; exact findSome?_none_iff _ _⟩

/-- C8: every vector leaving the embedding normalization step has a
positive denominator (the 1e-12 epsilon floor makes division by zero
impossible), and whenever the pooled vector is non-degenerate (its L2
norm is at least the floor) the normalized vector has L2 norm within
1e-6 of 1 (exactly 1 in the real-number idealization). -/
theorem c8_embedding_norm (v : List ℝ) :
    0 < embDenom v ∧
    ((1e-12 : ℝ) ≤ l2norm v →
      |l2norm (normalizeEmbedding v) - 1| ≤ 1e-6) := by
  refine ⟨lt_of_lt_of_le (by norm_num) (le_max_right _ _), fun h => ?_⟩
  rw [l2norm_normalize v h]
  norm_num

/-- C8 witness: the hypothesis is satisfiable — the one-dimensional
pooled vector `[1]` has norm 1 ≥ 1e-12, and its normalization has norm
within 1e-6 of 1. -/
theorem c8_embedding_norm_witness :
    (1e-12 : ℝ) ≤ l2norm [1] ∧
    |l2norm (normalizeEmbedding [1]) - 1| ≤ 1e-6 := by
  have h1 : l2norm [1] = 1 := by
    unfold l2norm sumSq
    norm_num
  have h : (1e-12 : ℝ) ≤ l2norm [1] := by rw [h1]; norm_num
  exact ⟨h, (c8_embedding_norm [1]).2 h⟩

/-- Every `load_model` call that passes input validation and the
idempotency check either fails with all fields rolled back to Unloaded
and a substring-classified RuntimeError, or succeeds having invoked the
underlying loader exactly once and set the active name. -/
theorem load_model_shape (st : MgrState) (name : String) (env : LoadEnv)
    (h1 : name.isEmpty = false) (h2 : name.length ≤ 256)
    (hc : st.current_model_name ≠ some name) :
    (∃ m k, load_model st name env =
      (unloadedState,
        .error (.runtimeError (classifyLoadFailure name m)), k)) ∨
    (∃ st1, load_model st name env = (st1, .ok (), 1) ∧
      st1.current_model_name = some name) := by
  unfold load_model
  rw [if_neg (by simp [h1]), if_neg (by omega), if_neg hc]
  split_ifs with ha hb hv
  · exact Or.inl ⟨_, _, rfl⟩
  · exact Or.inl ⟨_, _, rfl⟩
  · cases hlv : env.loadVlm with
    | error m => exact Or.inl ⟨_, _, rfl⟩
    | ok pair =>
      obtain ⟨mm, pp⟩ := pair
      dsimp only
      cases hlc : env.loadConfig with
      | error m => exact Or.inl ⟨_, _, rfl⟩
      | ok cfg =>
        dsimp only
        split_ifs with hmm hpp
        · exact Or.inl ⟨_, _, rfl⟩
        · exact Or.inl ⟨_, _, rfl⟩
        · exact Or.inr ⟨_, rfl, rfl⟩
  · cases hlt : env.loadText with
    | error m => exact Or.inl ⟨_, _, rfl⟩
    | ok pair =>
      obtain ⟨mm, tt⟩ := pair
      dsimp only
      split_ifs with hmm htt
      · exact Or.inl ⟨_, _, rfl⟩
      · exact Or.inl ⟨_, _, rfl⟩
      · exact Or.inr ⟨_, rfl, rfl⟩

set_option maxRecDepth 4000 in
/-- C6 counterexample: the claim quantifies over load failures "for any
reason", but a validation failure (here: a 257-character model name)
raises before the rollback block of lines 429-439, leaving a previously
loaded model's fields fully populated — not their Unloaded values; the
raised error is an unclassified ValueError. -/
theorem c6_counterexample :
    ∃ e, load_model loadedSt longName loadEnv0 = (loadedSt, .error e, 0) ∧
      loadedSt ≠ unloadedState :=
  ⟨.valueError "Model name is too long (max 256 characters)", rfl,
    by decide⟩

/-- C6 (amended): every `load_model(name)` call that fails *after
passing input validation and the idempotency check* rolls every
model-state field back to its Unloaded value and raises a RuntimeError
classified by substring matching on the underlying failure text, leaving
the manager retriable; input-validation failures (empty or over-long
name) instead raise ValueError before touching any state. -/
theorem c6_load_rollback (st : MgrState) (name : String) (env : LoadEnv)
    (h1 : name.isEmpty = false) (h2 : name.length ≤ 256)
    (hc : st.current_model_name ≠ some name)
    (st1 : MgrState) (e : LoadError) (k : Nat)
    (hcall : load_model st name env = (st1, .error e, k)) :
    st1 = unloadedState ∧
    ∃ m, e = .runtimeError (classifyLoadFailure name m) := by
  rcases load_model_shape st name env h1 h2 hc with ⟨m, k2, hs⟩ | ⟨st2, hs, -⟩
  · have hh := hcall.symm.trans hs
    have hst := congrArg Prod.fst hh
    have he2 := congrArg (fun p => p.2.1) hh
    dsimp only at hst he2
    injection he2 with he3
    exact ⟨hst, m, he3⟩
  · have hh := hcall.symm.trans hs
    have he2 := congrArg (fun p => p.2.1) hh
    dsimp only at he2
    exact Except.noConfusion he2

/-- C6 witness: a failing load with valid name "nm" (loader raises
"boom 404") leaves the Unloaded state and a NotFound-classified error. -/
theorem c6_load_rollback_witness :
    unloadedState = unloadedState ∧
    ∃ m, LoadError.runtimeError (classifyLoadFailure "nm" "boom 404") =
      .runtimeError (classifyLoadFailure "nm" m) :=
  c6_load_rollback unloadedState "nm" envFailLoad rfl (by decide)
    (by decide) unloadedState
    (.runtimeError (classifyLoadFailure "nm" "boom 404")) 1 rfl

/-- C9: `load_model(name)` with `name` already the active model is a
no-op — state unchanged and the underlying loader not invoked — and,
when the first of two consecutive calls actually loads and succeeds, the
pair performs the underlying load exactly once (the second call is the
observed no-op). -/
theorem c9_load_idempotent (st : MgrState) (name : String) (env : LoadEnv)
    (h1 : name.isEmpty = false) (h2 : name.length ≤ 256) :
    (st.current_model_name = some name →
      load_model st name env = (st, .ok (), 0)) ∧
    (st.current_model_name ≠ some name →
      ∀ st1 k1, load_model st name env = (st1, .ok (), k1) →
        k1 = 1 ∧ load_model st1 name env = (st1, .ok (), 0)) := by
  have hnoop : ∀ st2 : MgrState, st2.current_model_name = some name →
      load_model st2 name env = (st2, .ok (), 0) := by
    intro st2 hc2
    unfold load_model
    rw [if_neg (by simp [h1]), if_neg (by omega), if_pos hc2]
  refine ⟨hnoop st, fun hc st1 k1 hcall => ?_⟩
  rcases load_model_shape st name env h1 h2 hc with ⟨m, k2, hs⟩ | ⟨st2, hs, hname⟩
  · have hh := hcall.symm.trans hs
    have he2 := congrArg (fun p => p.2.1) hh
    dsimp only at he2
    exact Except.noConfusion he2
  · have hh := hcall.symm.trans hs
    have hst := congrArg Prod.fst hh
    have hk := congrArg (fun p => p.2.2) hh
    dsimp only at hst hk
    subst hst
    exact ⟨hk, hnoop st1 hname⟩

/-- C9 witness: a concrete fresh load of "org/m" performs the load once,
and the immediately repeated call is a no-op. -/
theorem c9_load_idempotent_witness :
    1 = 1 ∧ load_model loadedSt2 "org/m" envOkLoad = (loadedSt2, .ok (), 0) :=
  (c9_load_idempotent unloadedState "org/m" envOkLoad rfl (by decide)).2
    (by decide) loadedSt2 1 rfl

/-- C3: with a valid prompt, any option combination outside the
documented ranges (temperature in [0,2], top_k in [0,1000], top_p in
[0,1], num_predict in [1, 131072] — the context window) makes `generate`
raise a ValueError whose outcome is independent of the engine
environment (no tokenization, no sampler, no token stream is consulted);
any combination inside the ranges is never rejected with a ValueError —
the values flow unchanged into the sampler parameters `textStream`
receives, as the definition of `textGenerate` shows. -/
theorem c3_validation (args : GenArgs) (env env2 : GenEnv)
    (hp : promptValid args) :
    (¬ paramsInRange args →
      generate args env = generate args env2 ∧
      ∃ m, generate args env = .error (.valueError m)) ∧
    (paramsInRange args →
      ∀ m, generate args env ≠ .error (.valueError m)) := by
  constructor
  · intro hnr
    have hv : validateGen args ≠ none := fun h =>
      hnr ((validateGen_none_iff args hp).mp h)
    obtain ⟨m, hm⟩ := Option.ne_none_iff_exists'.mp hv
    unfold generate
    rw [hm]
    exact ⟨rfl, m, rfl⟩
  · intro hr m
    have hv := (validateGen_none_iff args hp).mpr hr
    unfold generate
    rw [hv]
    dsimp only
    by_cases hm2 : env.modelLoaded
    · rw [if_neg (not_not.mpr hm2)]
      by_cases hvp : visionPathTaken args env
      · rw [if_pos hvp]
        exact fun hcon => Except.noConfusion hcon
      · rw [if_neg hvp]
        exact fun hcon => Except.noConfusion hcon
    · rw [if_pos hm2]
      intro hcon
      injection hcon with h2
      exact GenError.noConfusion h2

/-- C3 witness: temperature 3 is rejected with the same ValueError under
two engine environments that differ in every stream aspect. -/
theorem c3_validation_witness :
    generate badArgs envRunA = generate badArgs envRunB ∧
    ∃ m, generate badArgs envRunA = .error (.valueError m) :=
  (c3_validation badArgs envRunA envRunB (by decide)).1 (by decide)

/-- C1 counterexample: a text-path run in which the engine raises after
one streamed token.  The terminal event (lines 645-650) is built with
default `eval_count = 0` although one done=false event preceded it, so
the claimed equality between the terminal `eval_count` and the number of
preceding non-terminal events fails. -/
theorem c1_counterexample :
    (generate baseArgs (baseEnv ⟨[.tok "a"], some "boom"⟩)).map
      (fun r => c1Check r.1) = .ok false ∧
    (generate baseArgs (baseEnv ⟨[.tok "a"], some "boom"⟩)).map
      (fun r => r.1.map (fun e => (e.done, e.done_reason, e.eval_count))) =
      .ok [(false, "", 1), (true, "error", 0)] :=
  ⟨rfl, rfl⟩

/-- C1 (amended): every event sequence yielded by `generate` (a call
that passes validation and yields at all) ends in exactly one done=true
event, preceded only by done=false events; when the run ends in failure
(`done_reason = "error"`) the terminal `eval_count` is 0 regardless of
the tokens already streamed, and when it ends normally
(`done_reason = "stop"`) and did not take the vision non-streaming
fallback, the terminal `eval_count` equals the number of preceding
done=false events. -/
theorem c1_stream_terminal (args : GenArgs) (env : GenEnv)
    (evs : List CompletionResponse) (ws : List String)
    (h : generate args env = .ok (evs, ws)) :
    ∃ pre fin, evs = pre ++ [fin] ∧ (∀ e ∈ pre, e.done = false) ∧
      fin.done = true ∧
      (fin.done_reason = "error" → fin.eval_count = 0) ∧
      (fin.done_reason = "stop" → ¬ visionFallbackTaken args env →
        fin.eval_count = pre.length) := by
  obtain ⟨hv, hm, hcase⟩ := generate_ok_cases args env evs ws h
  rcases hcase with ⟨hvp, heq⟩ | ⟨hvp, heq⟩
  · obtain ⟨pre, fin, hgen, hd, hdone, herr, hstop⟩ :=
      visionGenerate_spec args env (imageDropWarns args env)
    rw [hgen] at heq
    have hevs : evs = pre ++ [fin] := congrArg Prod.fst heq
    refine ⟨pre, fin, hevs, hd, hdone, herr, fun hs hnf => ?_⟩
    rcases hstop hs with ⟨him, hstr⟩ | hlen
    · exact absurd ⟨hvp, him, hstr⟩ hnf
    · exact hlen
  · have hnp : 1 ≤ args.num_predict :=
      (validateGen_eq_none args hv).2.2.2.2.2.1
    obtain ⟨pre, fin, hgen, hd, hdone, herr, hstop⟩ :=
      textGenerate_spec args env (imageDropWarns args env) hnp
    rw [hgen] at heq
    have hevs : evs = pre ++ [fin] := congrArg Prod.fst heq
    exact ⟨pre, fin, hevs, hd, hdone, herr, fun hs _ => hstop hs⟩

/-- C1 witness: a concrete successful one-token run satisfies the
amended invariant. -/
theorem c1_stream_terminal_witness :
    ∃ pre fin,
      [mkTokenEvent "a" 1 1, finalStopEvent 1 1] = pre ++ [fin] ∧
      (∀ e ∈ pre, e.done = false) ∧ fin.done = true ∧
      (fin.done_reason = "error" → fin.eval_count = 0) ∧
      (fin.done_reason = "stop" →
        ¬ visionFallbackTaken baseArgs (baseEnv ⟨[.tok "a"], none⟩) →
        fin.eval_count = pre.length) :=
  c1_stream_terminal baseArgs (baseEnv ⟨[.tok "a"], none⟩)
    [mkTokenEvent "a" 1 1, finalStopEvent 1 1] [] rfl

/-- C5 counterexample: for the engine stream whose single token is
"hi " (trailing space), the buffered accumulated text is "hi " but the
single emitted event carries the `.strip()`ped text "hi"
(line 1057: `combined = "".join(collected).strip()`), so the final event
does not carry the full accumulated generation text. -/
theorem c5_counterexample :
    (toolPathEvents baseArgs (baseEnv ⟨[.tok "hi "], none⟩)).map
      (fun l => l.map (fun e => e.content)) = .ok ["hi"] ∧
    (generate baseArgs (baseEnv ⟨[.tok "hi "], none⟩)).map
      (fun r => String.join (r.1.map (fun e => e.content))) = .ok "hi " ∧
    ("hi" : String) ≠ "hi " :=
  ⟨rfl, rfl, by decide⟩

/-- C5 (amended): on the tool-calling path, for every request whose
generation starts successfully, exactly one event is emitted; it is
done=true, its content is the accumulated generation text stripped of
leading and trailing whitespace, its tool_calls field is the extractor
result on that content, and its done_reason is "tool_calls" exactly when
the extractor found at least one call and "stop" otherwise. -/
theorem c5_toolpath (args : GenArgs) (env : GenEnv)
    (out : List CompletionResponse)
    (h : toolPathEvents args env = .ok out) :
    ∃ e evs ws, out = [e] ∧ generate args env = .ok (evs, ws) ∧
      e.done = true ∧
      e.content = pyStrip (String.join (evs.map (fun x => x.content))) ∧
      e.tool_calls = parse_tool_calls e.content ∧
      (e.done_reason = "tool_calls" ↔ parse_tool_calls e.content ≠ none) ∧
      (e.done_reason = "stop" ↔ parse_tool_calls e.content = none) := by
  unfold toolPathEvents at h
  cases hg : generate args env with
  | error ge => rw [hg] at h; cases h
  | ok r =>
    obtain ⟨evs, ws⟩ := r
    rw [hg] at h
    dsimp only [Except.map] at h
    injection h with h2
    cases hpc : parse_tool_calls
        (pyStrip (String.join (evs.map fun x => x.content))) with
    | none =>
      rw [hpc] at h2
      dsimp only [Option.getD, List.isEmpty_nil] at h2
      refine ⟨_, evs, ws, h2.symm, rfl, rfl, rfl, ?_, ?_, ?_⟩
      · dsimp only
        rw [hpc]
      · dsimp only
        rw [hpc]
        exact ⟨fun h' => absurd h' (by decide), fun h' => absurd rfl h'⟩
      · dsimp only
        rw [hpc]
        exact ⟨fun _ => rfl, fun _ => rfl⟩
    | some l =>
      have hne : l ≠ [] := parse_tool_calls_ne_nil _ _ hpc
      have hemp : l.isEmpty = false := by
        simpa [List.isEmpty_iff] using hne
      rw [hpc] at h2
      simp only [Option.getD, hemp, Bool.false_eq_true, if_false] at h2
      refine ⟨_, evs, ws, h2.symm, rfl, rfl, rfl, ?_, ?_, ?_⟩
      · dsimp only
        rw [hpc]
      · dsimp only
        rw [hpc]
        exact ⟨fun _ hcon => Option.noConfusion hcon, fun _ => rfl⟩
      · dsimp only
        rw [hpc]
        exact ⟨fun h' => absurd h' (by decide), fun h' => Option.noConfusion h'⟩

/-- C5 witness: the hypothesis is satisfiable — a concrete tool-path run
("hi " then engine stop) emits exactly one stripped-content stop event. -/
theorem c5_toolpath_witness :
    ∃ e evs ws, [c5WitnessEvent] = [e] ∧
      generate baseArgs (baseEnv ⟨[.tok "hi "], none⟩) = .ok (evs, ws) ∧
      e.done = true ∧
      e.content = pyStrip (String.join (evs.map (fun x => x.content))) ∧
      e.tool_calls = parse_tool_calls e.content ∧
      (e.done_reason = "tool_calls" ↔ parse_tool_calls e.content ≠ none) ∧
      (e.done_reason = "stop" ↔ parse_tool_calls e.content = none) :=
  c5_toolpath baseArgs (baseEnv ⟨[.tok "hi "], none⟩) [c5WitnessEvent] rfl

/-- C10: on the tool-calling path the single emitted event's done_reason
is "tool_calls" or "stop" and never "error": even when the buffered
generation ended in a done_reason="error" terminal (the hypotheses place
us in exactly that scenario), the final event overwrites that reason
(line 1066) and the failure text survives only inside the stripped
accumulated content. -/
theorem c10_toolpath_no_error (args : GenArgs) (env : GenEnv)
    (evs : List CompletionResponse) (ws : List String)
    (last : CompletionResponse)
    (hg : generate args env = .ok (evs, ws))
    (hl : evs.getLast? = some last)
    (he : last.done_reason = "error") :
    ∃ e, toolPathEvents args env = .ok [e] ∧
      e.done_reason ≠ "error" ∧
      (e.done_reason = "tool_calls" ∨ e.done_reason = "stop") ∧
      e.content = pyStrip (String.join (evs.map (fun x => x.content))) := by
  unfold toolPathEvents
  rw [hg]
  dsimp only [Except.map]
  refine ⟨_, rfl, ?_, ?_, rfl⟩
  · by_cases hcalls : ((parse_tool_calls
        (pyStrip (String.join (evs.map fun x => x.content)))).getD
        []).isEmpty
    · dsimp only
      rw [if_pos hcalls]
      decide
    · dsimp only
      rw [if_neg hcalls]
      decide
  · by_cases hcalls : ((parse_tool_calls
        (pyStrip (String.join (evs.map fun x => x.content)))).getD
        []).isEmpty
    · dsimp only
      rw [if_pos hcalls]
      exact Or.inr rfl
    · dsimp only
      rw [if_neg hcalls]
      exact Or.inl rfl

/-- C10 witness: the hypotheses are satisfiable — a run whose buffered
sequence ends in a done_reason="error" event still emits a non-error
final event. -/
theorem c10_toolpath_no_error_witness :
    ∃ e, toolPathEvents baseArgs (baseEnv ⟨[.tok "a"], some "boom"⟩) =
        .ok [e] ∧
      e.done_reason ≠ "error" ∧
      (e.done_reason = "tool_calls" ∨ e.done_reason = "stop") ∧
      e.content = pyStrip (String.join
        ([mkTokenEvent "a" 1 1,
          errEvent "Error: Generation failed - boom"].map
          (fun x => x.content))) :=
  c10_toolpath_no_error baseArgs (baseEnv ⟨[.tok "a"], some "boom"⟩)
    [mkTokenEvent "a" 1 1, errEvent "Error: Generation failed - boom"] []
    (errEvent "Error: Generation failed - boom") rfl rfl rfl

/-- C7 counterexample: with num_predict = 1 and an engine stream of 3
token events (more than 2 x num_predict, never signalling completion),
the run yields one token event and a stop terminal and logs *no*
warning: the `token_count >= num_predict` break (line 625) fires at 1
token, long before the 2 x num_predict runaway guard (line 606) could,
so the claimed warning is never logged. -/
theorem c7_counterexample :
    tokCount [StreamItem.tok "a", StreamItem.tok "b",
      StreamItem.tok "c"] = 3 ∧
    2 * ({ baseArgs with num_predict := 1 } : GenArgs).num_predict
      < (3 : ℤ) ∧
    (generate { baseArgs with num_predict := 1 }
        (baseEnv ⟨[.tok "a", .tok "b", .tok "c"], none⟩)).map
      (fun r => (r.1.map (fun e => (e.done, e.done_reason, e.eval_count)),
        r.2)) =
      .ok ([(false, "", 1), (true, "stop", 1)], []) :=
  ⟨rfl, by decide, rfl⟩

/-- C7 (amended): for every text-path generation whose engine stream
holds more than 2 x num_predict token events without signalling
completion, the orchestrator has already cut the stream short at exactly
num_predict tokens — the 2 x num_predict runaway guard is unreachable and
no warning is logged — and still emits a single well-formed terminal
done=true, done_reason="stop" event as the last event. -/
theorem c7_runaway (args : GenArgs) (env : GenEnv) (ptoks : Nat)
    (hp : promptValid args) (hr : paramsInRange args)
    (hm : env.modelLoaded = true) (himg : args.images = [])
    (htok : env.tokenize = .ok ptoks) (hlim : ptoks ≤ 131072)
    (hsam : env.samplerResult = .ok ())
    (hover : 2 * args.num_predict <
      (tokCount (env.textStream
        ⟨args.temperature, args.top_p, args.top_k⟩).items : ℤ)) :
    ∃ pre fin, generate args env = .ok (pre ++ [fin], []) ∧
      (pre.length : ℤ) = args.num_predict ∧
      (∀ e ∈ pre, e.done = false) ∧
      fin.done = true ∧ fin.done_reason = "stop" ∧
      fin.eval_count = pre.length := by
  have hnp : 1 ≤ args.num_predict := hr.2.2.2.1
  have hv : validateGen args = none :=
    validateGen_eq_none_of args hp.1 (Nat.not_lt.mp hp.2) hr
  have hid : imageDropWarns args env = [] := by
    simp [imageDropWarns, himg]
  have hnvp : ¬ visionPathTaken args env := by
    simp [visionPathTaken, effDecodedImages, himg]
  obtain ⟨hw, hcnt, hdone, hbt, hbf, htc⟩ :=
    textLoop_spec args.num_predict ptoks hnp
      (env.textStream ⟨args.temperature, args.top_p, args.top_k⟩).items 0
      (by omega)
  have hbroke := htc (by omega)
  have hcount := hbt hbroke
  unfold generate
  rw [hv]
  dsimp only
  rw [if_neg (not_not.mpr hm), if_neg hnvp, hid]
  unfold textGenerate
  rw [htok]
  dsimp only
  rw [if_neg (Nat.not_lt.mpr hlim), hsam]
  dsimp only
  refine ⟨(textLoop args.num_predict ptoks
      (env.textStream ⟨args.temperature, args.top_p, args.top_k⟩).items
      0).events,
    finalStopEvent ptoks (textLoop args.num_predict ptoks
      (env.textStream ⟨args.temperature, args.top_p, args.top_k⟩).items
      0).count, ?_, by omega, hdone, rfl, rfl,
    by simpa [finalStopEvent] using hcnt⟩
  cases hra : (env.textStream
      ⟨args.temperature, args.top_p, args.top_k⟩).raisesAfter with
  | some m =>
    rw [hbroke]
    dsimp only
    rw [hw]
    simp
  | none =>
    dsimp only
    rw [hw]
    simp

/-- C7 witness: the hypotheses are satisfiable — num_predict 1 with a
3-token stream. -/
theorem c7_runaway_witness :
    ∃ pre fin,
      generate { baseArgs with num_predict := 1 }
        (baseEnv ⟨[.tok "a", .tok "b", .tok "c"], none⟩) =
        .ok (pre ++ [fin], []) ∧
      (pre.length : ℤ) =
        ({ baseArgs with num_predict := 1 } : GenArgs).num_predict ∧
      (∀ e ∈ pre, e.done = false) ∧
      fin.done = true ∧ fin.done_reason = "stop" ∧
      fin.eval_count = pre.length :=
  c7_runaway { baseArgs with num_predict := 1 }
    (baseEnv ⟨[.tok "a", .tok "b", .tok "c"], none⟩) 1
    (by decide) (by decide) rfl rfl rfl (by decide) rfl (by decide)
